import Mathlib

/-!
Verification of the image-handling, search, credential and CRUD logic of
`server.js` (travel-booking admin backend).  Each JavaScript route handler
that the claims touch is embedded as a pure Lean function; external
collaborators (Cloudinary destroy, `JSON.parse`, the Mongo save) are
modelled as oracles passed in as arguments.
-/

namespace DreamzBackend

/-- ASCII word character, as matched by the JavaScript regex class `\w`,
that is `[A-Za-z0-9_]`. -/
def isWordChar (c : Char) : Bool :=
  c.isAlpha || c.isDigit || c == '_'

/-- Characters matched by the JavaScript regex `.` (any character except a
line terminator; URLs contain neither, and the exotic terminators
U+2028/U+2029 are outside the modelled alphabet). -/
def isDotChar (c : Char) : Bool :=
  c != '\n' && c != '\r'

/-- Does `needle` occur literally at the front of `hay`? -/
def takeMatch : List Char → List Char → Bool
  | [], _ => true
  | _ :: _, [] => false
  | n :: ns, h :: hs => n == h && takeMatch ns hs

/-- Does `needle` occur literally anywhere inside `hay`? -/
def hasSubstr (needle : List Char) : List Char → Bool
  | [] => takeMatch needle []
  | c :: t => takeMatch needle (c :: t) || hasSubstr needle t

/-- The literal `/upload/` marker of the Cloudinary URL regex. -/
def uploadMarker : List Char := ['/', 'u', 'p', 'l', 'o', 'a', 'd', '/']

/-- Semantics of the regex tail `(.+)\.\w+$` applied to `s`, returning the
greedy capture of `(.+)` when the tail matches.  Because `\w` cannot match
a dot, a match forces the dot to sit immediately before the maximal
trailing word-character run; the capture is everything before that dot,
which must be non-empty and free of line terminators. -/
def matchDotExt (s : List Char) : Option (List Char) :=
  let rev := s.reverse
  let ext := rev.takeWhile isWordChar
  match rev.drop ext.length with
  | '.' :: midRev =>
      if !ext.isEmpty && !midRev.isEmpty && midRev.all isDotChar then
        some midRev.reverse
      else none
  | _ => none

/-- Semantics of `(?:v\d+\/)?(.+)\.\w+$` applied to the text after an
`/upload/` occurrence.  The optional version group is greedy, so the
branch that consumes `v<digits>/` is tried first and the engine falls back
to the version-less branch when that fails.  `\d+` needs no backtracking:
only the maximal digit run can be followed by `/`. -/
def matchAfterUpload (rest : List Char) : Option (List Char) :=
  let versionBranch :=
    match rest with
    | 'v' :: t =>
        let ds := t.takeWhile Char.isDigit
        if !ds.isEmpty then
          match t.drop ds.length with
          | '/' :: r => matchDotExt r
          | _ => none
        else none
    | _ => none
  match versionBranch with
  | some cap => some cap
  | none => matchDotExt rest

/-- Leftmost match of `\/upload\/(?:v\d+\/)?(.+)\.\w+$` (the behaviour of
`String.prototype.match` without the global flag): scan start positions
left to right, a candidate start must begin with the literal `/upload/`,
and the first start at which the whole pattern matches wins. -/
def findUpload : List Char → Option (List Char)
  | [] => none
  | c :: t =>
      if takeMatch uploadMarker (c :: t) then
        match matchAfterUpload ((c :: t).drop uploadMarker.length) with
        | some cap => some cap
        | none => findUpload t
      else findUpload t

/-- Embedding of `getPublicId` in `server.js`: drop the query string
(`url.split("?")[0]`), then match `/\/upload\/(?:v\d+\/)?(.+)\.\w+$/` and
return the first capture group; `null` (here `none`) when the regex does
not match. -/
def getPublicId (url : String) : Option String :=
  let clean := url.toList.takeWhile (fun c => c != '?')
  (findUpload clean).map fun l => String.mk l

lemma takeMatch_append (n l₁ l₂ : List Char) (h : takeMatch n l₁ = true) :
    takeMatch n (l₁ ++ l₂) = true := by
  induction n generalizing l₁ with
  | nil => simp [takeMatch]
  | cons c ns ih =>
      cases l₁ with
      | nil => simp [takeMatch] at h
      | cons a t =>
          simp only [takeMatch, Bool.and_eq_true] at h
          simp only [List.cons_append, takeMatch, Bool.and_eq_true]
          exact ⟨h.1, ih t h.2⟩

lemma hasSubstr_nil_left (l : List Char) : hasSubstr [] l = true := by
  induction l with
  | nil => rfl
  | cons c t ih => simp [hasSubstr, takeMatch]

lemma hasSubstr_append (n l₁ l₂ : List Char) (h : hasSubstr n l₁ = true) :
    hasSubstr n (l₁ ++ l₂) = true := by
  induction l₁ with
  | nil =>
      have hn : n = [] := by
        cases n with
        | nil => rfl
        | cons c t => simp [hasSubstr, takeMatch] at h
      subst hn
      simpa using hasSubstr_nil_left l₂
  | cons c t ih =>
      simp only [hasSubstr, Bool.or_eq_true] at h
      rcases h with h | h
      · simp only [List.cons_append, hasSubstr, Bool.or_eq_true]
        exact Or.inl (takeMatch_append n (c :: t) l₂ h)
      · simp only [List.cons_append, hasSubstr, Bool.or_eq_true]
        exact Or.inr (ih h)

lemma findUpload_none (l : List Char) (h : hasSubstr uploadMarker l = false) :
    findUpload l = none := by
  induction l with
  | nil => rfl
  | cons c t ih =>
      simp only [hasSubstr, Bool.or_eq_false_iff] at h
      simp [findUpload, h.1, ih h.2]

/-- C4: identifier extraction strips the query string and returns the path
segment between the `/upload/` marker (with optional version segment) and
the final filename extension: the sample URL yields
`destinations/abc123`, and any URL that nowhere contains `/upload/` yields
no identifier. -/
theorem getPublicId_spec :
    getPublicId "https://host/upload/v123/destinations/abc123.jpg?x=1"
      = some "destinations/abc123"
    ∧ ∀ url : String, hasSubstr uploadMarker url.toList = false →
        getPublicId url = none := by
  constructor
  · decide
  · intro url h
    have hclean : findUpload (url.toList.takeWhile (fun c => c != '?')) = none := by
      apply findUpload_none
      by_contra hc
      have hc' : hasSubstr uploadMarker (url.toList.takeWhile (fun c => c != '?')) = true := by
        cases hcase : hasSubstr uploadMarker (url.toList.takeWhile (fun c => c != '?')) with
        | true => rfl
        | false => exact absurd hcase hc
      have : hasSubstr uploadMarker
          (url.toList.takeWhile (fun c => c != '?')
            ++ url.toList.dropWhile (fun c => c != '?')) = true :=
        hasSubstr_append _ _ _ hc'
      rw [List.takeWhile_append_dropWhile] at this
      rw [this] at h
      exact Bool.noConfusion h
    simp only [getPublicId]
    rw [hclean]
    rfl

/-- Witness for C4 at a concrete URL with no `/upload/` segment. -/
theorem getPublicId_spec_witness : getPublicId "https://host/image.jpg" = none :=
  getPublicId_spec.2 "https://host/image.jpg" (by decide)

/-! ### Admin credential gate (POST /api/admin/change-password) -/

/-- Embedding of `POST /api/admin/change-password`.  Returns the stored
admin password after the request together with the HTTP status sent.
Branches in source order: missing bearer token → 401; `jwt.verify` throws
on an invalid or expired token, which the surrounding catch turns into
500; `Admin.findById` without a match → 404; stored password different
from `oldPassword` (exact string comparison, no hashing) → 400;
otherwise the stored password is overwritten with `newPassword` verbatim
and 200 is returned. -/
def changePassword (tokenPresent tokenValid adminFound : Bool)
    (oldPassword newPassword stored : String) : String × Nat :=
  if !tokenPresent then (stored, 401)
  else if !tokenValid then (stored, 500)
  else if !adminFound then (stored, 404)
  else if !(stored == oldPassword) then (stored, 400)
  else (newPassword, 200)

/-- C8: change-password succeeds (status 200) exactly when a token is
present and valid, resolves to a stored admin, and the supplied old
password equals the stored password string; on success the stored
password becomes the new password verbatim (no hashing), otherwise it is
unchanged. -/
theorem changePassword_spec (tp tv af : Bool) (oldPw newPw stored : String) :
    ((changePassword tp tv af oldPw newPw stored).2 = 200
        ↔ (tp && tv && af && (stored == oldPw)) = true)
    ∧ (changePassword tp tv af oldPw newPw stored).1
        = (if tp && tv && af && (stored == oldPw) then newPw else stored) := by
  cases tp <;> cases tv <;> cases af <;>
    cases h : stored == oldPw <;>
      simp [changePassword, h]

/-- Witness for C8: a valid token and matching old password overwrite the
stored password, a mismatched old password leaves it unchanged. -/
theorem changePassword_spec_witness :
    (changePassword true true true "old" "new" "old").1 = "new"
    ∧ (changePassword true true true "wrong" "new" "old").1 = "old" := by
  have h₁ := (changePassword_spec true true true "old" "new" "old").2
  have h₂ := (changePassword_spec true true true "wrong" "new" "old").2
  constructor
  · rw [h₁]; decide
  · rw [h₂]; decide

/-! ### Image merging in the update routes (PUT packages, PUT hotels) -/

/-- Image merge of `PUT /api/admin/hotels/:id`: the handler parses the
caller-declared `existingImages` (the retained refs), maps the uploaded
files to their Cloudinary paths, and stores
`data.images = [...oldImages, ...newImages]`. -/
def hotelMergeImages (oldImages newImages : List String) : List String :=
  oldImages ++ newImages

/-- Cloudinary destroy calls issued by `PUT /api/admin/hotels/:id`: the
handler contains no `cloudinary.uploader.destroy` call at all (the only
destroy calls in `server.js` are in the DELETE routes), and it never
reads the stored hotel record before `findByIdAndUpdate`. -/
def hotelUpdateDeletes (_storedImages _retainedRefs _newFiles : List String) :
    List String := []

/-- Image merge of `PUT /api/admin/packages/:id`: when new files were
uploaded the handler stores all previously stored images followed by the
new paths, otherwise it keeps the stored images; no retained subset is
ever consulted. -/
def pkgMergeImages (existingImages newFiles : List String) : List String :=
  if newFiles.isEmpty then existingImages else existingImages ++ newFiles

/-- Cloudinary destroy calls issued by `PUT /api/admin/packages/:id`:
none. -/
def pkgUpdateDeletes (_existingImages _newFiles : List String) : List String := []

/-- Orphan set exactly as the specification defines it (spec wording, for
comparison with the code): `existing − retainedRefs`, every ref of
`existing` not named in `retainedRefs`. -/
def specOrphans (existing retained : List String) : List String :=
  existing.filter fun u => !(retained.contains u)

/-- Counterexample to C1: updating a hotel whose stored images are
`["u1"]` while retaining nothing makes `u1` orphaned according to the
spec, yet the handler issues zero remote-delete calls. -/
theorem hotelUpdate_orphans_not_deleted_cex :
    hotelUpdateDeletes ["u1"] [] [] = []
    ∧ specOrphans ["u1"] [] = ["u1"] := by
  constructor <;> rfl

/-- C1 (amended): update operations compute no orphan set and issue no
remote-delete call whatsoever — for every input both update handlers
produce an empty list of destroy calls, so spec-orphaned refs are leaked
rather than deleted. -/
theorem updates_issue_no_deletes
    (storedImages retainedRefs newFiles existingImages newUploads : List String) :
    hotelUpdateDeletes storedImages retainedRefs newFiles = []
    ∧ pkgUpdateDeletes existingImages newUploads = [] :=
  ⟨rfl, rfl⟩

/-- Counterexample to C2: with ten retained refs and one new upload the
hotel update stores eleven images — nothing is truncated to the
capacity of ten. -/
theorem hotelMergeImages_no_truncation_cex :
    10 < (hotelMergeImages
      ["u1", "u2", "u3", "u4", "u5", "u6", "u7", "u8", "u9", "u10"]
      ["u11"]).length := by
  decide

/-- C2 (amended): the new image set is exactly the retained refs followed
by the newly uploaded refs in order, but no truncation is ever applied —
the stored length is always `|retained| + |new|`, which can exceed the
nominal capacity (the only bound in the code is multer's per-request
upload limit). -/
theorem mergeImages_concat (oldImages newImages existing newFiles : List String) :
    hotelMergeImages oldImages newImages = oldImages ++ newImages
    ∧ (hotelMergeImages oldImages newImages).length
        = oldImages.length + newImages.length
    ∧ pkgMergeImages existing newFiles = existing ++ newFiles := by
  refine ⟨rfl, by simp [hotelMergeImages], ?_⟩
  cases newFiles <;> simp [pkgMergeImages]

/-! ### Entity deletion (DELETE packages, DELETE visas)

`cloudinary.uploader.destroy` is modelled by an oracle
`ok : String → Bool`: `ok id = true` when the returned promise resolves
and `false` when it rejects (a destroy of an unknown identifier resolves
with a not-found result, so rejection means a transport or API error). -/

/-- Package record as read by the delete route: thumbnail, main images,
and the image list of each activity. -/
structure PkgRec where
  thumbnail : Option String
  images : List String
  activities : List (List String)

/-- Public ids collected by `DELETE /api/admin/packages/:id` before
filtering: `getPublicId` of the thumbnail when truthy, of every main
image, and of every activity image, nulls included. -/
def pkgCollectIds (p : PkgRec) : List (Option String) :=
  (match p.thumbnail with
   | some t => if t == "" then [] else [getPublicId t]
   | none => [])
  ++ p.images.map getPublicId
  ++ (p.activities.map (fun imgs => imgs.map getPublicId)).flatten

/-- The `publicIds.filter(Boolean)` step: drop nulls (and the falsy empty
string, which `getPublicId` in fact never produces). -/
def pkgDeleteIds (p : PkgRec) : List String :=
  (pkgCollectIds p).filterMap fun o =>
    match o with
    | some s => if s == "" then none else some s
    | none => none

/-- `Promise.all` over the destroy calls: it resolves exactly when every
individual call resolves, and rejects as soon as any call rejects. -/
def promiseAll (ok : String → Bool) : List String → Bool
  | [] => true
  | i :: is => ok i && promiseAll ok is

/-- Embedding of `DELETE /api/admin/packages/:id` under a destroy oracle:
the awaited `Promise.all` precedes `findByIdAndDelete` inside the `try`,
so a rejected destroy jumps to the catch (status 500) before the record
is removed.  Result: (record removed, HTTP status). -/
def packageDelete (ok : String → Bool) (p : PkgRec) : Bool × Nat :=
  if promiseAll ok (pkgDeleteIds p) then (true, 200) else (false, 500)

/-- Embedding of `DELETE /api/admin/visas/:id` under a destroy oracle:
when the stored image is truthy and yields a public id, its destroy is
awaited before `findByIdAndDelete`; a rejection reaches the catch
(status 500) with the record still in place. -/
def visaDelete (ok : String → Bool) (image : Option String) : Bool × Nat :=
  match image with
  | none => (true, 200)
  | some u =>
      if u == "" then (true, 200)
      else
        match getPublicId u with
        | none => (true, 200)
        | some pid => if ok pid then (true, 200) else (false, 500)

/-- Counterexample to C3: a visa holding one well-formed image URL whose
remote deletion rejects ends with status 500 and the record NOT removed —
the individual deletion failure does prevent removal. -/
theorem visaDelete_failure_blocks_removal_cex :
    visaDelete (fun _ => false)
      (some "https://host/upload/v1/destinations/a.jpg") = (false, 500) := by
  decide

lemma promiseAll_eq_all (ok : String → Bool) (l : List String) :
    promiseAll ok l = l.all ok := by
  induction l with
  | nil => rfl
  | cons i is ih => simp [promiseAll, List.all_cons, ih]

/-- C3 (amended): entity deletion is fail-closed — the record is removed
(and success reported) exactly when every attempted remote deletion
resolves; any rejected remote deletion leaves the record in place with an
error status.  Refs whose URL yields no identifier are skipped and never
fail the operation. -/
theorem delete_fail_closed (ok : String → Bool) (p : PkgRec) (img : Option String) :
    ((packageDelete ok p).1 = (pkgDeleteIds p).all ok)
    ∧ ((packageDelete ok p).2 = 200 ↔ (packageDelete ok p).1 = true)
    ∧ ((visaDelete ok img).2 = 200 ↔ (visaDelete ok img).1 = true)
    ∧ (∀ u, img = some u → getPublicId u = none → visaDelete ok img = (true, 200)) := by
  refine ⟨?_, ?_, ?_, ?_⟩
  · rw [packageDelete, promiseAll_eq_all]
    cases h : (pkgDeleteIds p).all ok <;> simp [h]
  · rw [packageDelete]
    cases h : promiseAll ok (pkgDeleteIds p) <;> simp [h]
  · cases img with
    | none => simp [visaDelete]
    | some u =>
        cases hu : u == "" with
        | true => simp [visaDelete, hu]
        | false =>
            cases hp : getPublicId u with
            | none => simp [visaDelete, hu, hp]
            | some pid => cases ho : ok pid <;> simp [visaDelete, hu, hp, ho]
  · intro u hu hid
    subst hu
    cases he : u == "" with
    | true => simp [visaDelete, he]
    | false => simp [visaDelete, he, hid]

/-- Witness for C3 (amended) at a visa whose URL has no extractable
identifier: no destroy is attempted and deletion succeeds even under an
always-rejecting oracle. -/
theorem delete_fail_closed_witness :
    visaDelete (fun _ => false) (some "https://host/img.jpg") = (true, 200) :=
  (delete_fail_closed (fun _ => false) ⟨none, [], []⟩
      (some "https://host/img.jpg")).2.2.2
    "https://host/img.jpg" rfl (by decide)

/-! ### JSON-encoded sub-fields in create and update routes

`JSON.parse` is an external collaborator, modelled by an oracle
`parse : String → Option α` over an abstract type `α` of parsed JSON
values: `parse s = none` exactly when `JSON.parse(s)` throws on `s`. -/

/-- Per-field lenient parse in `POST /api/admin/packages`: for each field
of `jsonFields` holding a string, the handler tries `JSON.parse` and on
failure replaces the value with the empty-array default (the
`Array.isArray` alternative is unreachable there, the guarded value is a
string). -/
def pkgParseField {α : Type} (parse : String → Option α) (emptyArr : α)
    (s : String) : α :=
  (parse s).getD emptyArr

/-- HTTP status of `POST /api/admin/packages`: nothing in the handler
throws because of a malformed JSON sub-field, so the status depends only
on whether the Mongo save succeeds — the function does not even take the
parse oracle. -/
def pkgCreateStatus (saveOk : Bool) : Nat :=
  if saveOk then 200 else 500

/-- Flight document as assembled by the flight routes: body fields, the
three parsed JSON sub-fields, and the logo path or null. -/
structure FlightDoc (α : Type) where
  flightNumber : String
  airline : String
  duration : String
  departure : α
  arrival : α
  services : α
  logo : Option String

/-- Embedding of `POST /api/flights`: `departure`, `arrival` and
`services` go through bare `JSON.parse` inside the route's single
try/catch, so one malformed field aborts the whole request with status
500; otherwise the flight is saved (status 201, or 500 when the save
itself fails) with `logo` the uploaded file's path or null. -/
def flightCreate {α : Type} (parse : String → Option α)
    (flightNumber airline duration dep arr sv : String)
    (file : Option String) (saveOk : Bool) : Nat × Option (FlightDoc α) :=
  match parse dep, parse arr, parse sv with
  | some d, some a, some s =>
      if saveOk then
        (201, some ⟨flightNumber, airline, duration, d, a, s, file⟩)
      else (500, none)
  | _, _, _ => (500, none)

/-- Counterexample to C5: a flight create whose JSON-encoded sub-fields
are all malformed (the oracle rejects every string) returns status 500 —
the request as a whole fails instead of substituting empty defaults. -/
theorem flightCreate_malformed_fails_cex :
    (flightCreate (α := Unit) (fun _ => none)
      "AI101" "Air India" "2h 30m" "notjson" "alsonotjson" "stillnotjson"
      none true).1 = 500 := rfl

/-- C5 (amended): only package create is lenient — a malformed
JSON-encoded sub-field there is replaced by the empty default and the
request outcome is unaffected (success whenever the save succeeds); in
flight create a malformed departure/arrival/services field fails the
whole request with status 500. -/
theorem create_malformed_handling {α : Type} (parse : String → Option α)
    (emptyArr : α) (s : String)
    (flightNumber airline duration dep arr sv : String)
    (file : Option String) (saveOk : Bool)
    (hs : parse s = none) (hd : parse dep = none) :
    pkgParseField parse emptyArr s = emptyArr
    ∧ pkgCreateStatus true = 200
    ∧ (flightCreate parse flightNumber airline duration dep arr sv file saveOk).1
        = 500 := by
  refine ⟨?_, rfl, ?_⟩
  · rw [pkgParseField, hs]
    rfl
  · rw [flightCreate, hd]

/-- Witness for C5 (amended) under an oracle that rejects every string. -/
theorem create_malformed_handling_witness :
    pkgParseField (α := Unit) (fun _ => none) () "notjson" = ()
    ∧ pkgCreateStatus true = 200
    ∧ (flightCreate (α := Unit) (fun _ => none)
        "AI7" "Air" "1h" "bad1" "bad2" "bad3" none true).1 = 500 :=
  create_malformed_handling (α := Unit) (fun _ => none) () "notjson"
    "AI7" "Air" "1h" "bad1" "bad2" "bad3" none true rfl rfl

/-! ### Flight update (PUT /api/flight/:id) -/

/-- Logo stored by `PUT /api/flight/:id`:
`req.file ? req.file.path : existingLogo || null` — the uploaded file's
path when present, else the `existingLogo` body field when truthy, else
null. -/
def flightLogo (file existingLogo : Option String) : Option String :=
  match file with
  | some p => some p
  | none =>
      match existingLogo with
      | some s => if s == "" then none else some s
      | none => none

/-- Outcome of `PUT /api/flight/:id`. -/
inductive FlightUpdResult (α : Type)
  | parseError
  | notFound
  | ok (doc : FlightDoc α)

/-- Embedding of `PUT /api/flight/:id`: the update object is built first
(`JSON.parse` of the three sub-fields runs before the store call, a throw
yields status 500), then `findByIdAndUpdate` replaces every one of the
listed fields — the stored record is never read when building the
object, so `logo` is set from the request alone. -/
def flightUpdate {α : Type} (parse : String → Option α)
    (stored : Option (FlightDoc α))
    (flightNumber airline duration dep arr sv : String)
    (existingLogo file : Option String) : FlightUpdResult α :=
  match parse dep, parse arr, parse sv with
  | some d, some a, some s =>
      match stored with
      | none => .notFound
      | some _ =>
          .ok ⟨flightNumber, airline, duration, d, a, s,
               flightLogo file existingLogo⟩
  | _, _, _ => .parseError

/-- C10: a flight update carrying neither a new logo file nor an
`existingLogo` field stores null as the logo — whatever logo the stored
record held is overwritten, while the other fields are taken from the
request body. -/
theorem flightUpdate_logo_nulled {α : Type} (parse : String → Option α)
    (storedDoc : FlightDoc α)
    (flightNumber airline duration dep arr sv : String) (d a s : α)
    (hd : parse dep = some d) (ha : parse arr = some a)
    (hs : parse sv = some s) :
    flightUpdate parse (some storedDoc) flightNumber airline duration
        dep arr sv none none
      = .ok ⟨flightNumber, airline, duration, d, a, s, none⟩ := by
  rw [flightUpdate, hd, ha, hs]
  rfl

/-- Witness for C10: the stored logo `some "old.png"` is replaced by
`none`. -/
theorem flightUpdate_logo_nulled_witness :
    flightUpdate (α := String) some
        (some ⟨"AI1", "Air", "1h", "D", "A", "S", some "old.png"⟩)
        "AI2" "Air2" "2h" "dep" "arr" "svc" none none
      = .ok ⟨"AI2", "Air2", "2h", "dep", "arr", "svc", none⟩ :=
  flightUpdate_logo_nulled some ⟨"AI1", "Air", "1h", "D", "A", "S", some "old.png"⟩
    "AI2" "Air2" "2h" "dep" "arr" "svc" "dep" "arr" "svc" rfl rfl rfl

/-! ### Package search (GET /api/packagesearch) -/

/-- The three queried columns of a stored package. -/
structure PackageDoc where
  title : String
  price : Int
  days : String
deriving DecidableEq

/-- Lower-cased character list, for the `i` option of the title regex
(ASCII folding). -/
def lowerList (s : String) : List Char := s.toList.map Char.toLower

/-- The Mongo filter `{ title: { $regex: pat, $options: "i" } }` for a
metacharacter-free pattern (the shape the spec describes):
case-insensitive substring containment. -/
def ciMatch (pat s : String) : Bool :=
  hasSubstr (lowerList pat) (lowerList s)

/-- The price clause, added only when both `minPrice` and `maxPrice` are
supplied (a present parameter is modelled by its numeric value):
`price: { $gte, $lte }`. -/
def priceOk (minPrice maxPrice : Option Int) (price : Int) : Bool :=
  match minPrice, maxPrice with
  | some lo, some hi => decide (lo ≤ price) && decide (price ≤ hi)
  | _, _ => true

/-- The days clause, an exact match added only when `days` is a truthy
(non-empty) parameter. -/
def daysOk (days : Option String) (d : String) : Bool :=
  match days with
  | some q => if q == "" then true else q == d
  | none => true

/-- Embedding of `GET /api/packagesearch`: a missing or empty `title`
returns `[]` at once; otherwise the narrowed filter (title and the
optional clauses) runs, and when it comes back empty the handler re-runs
a title-only filter and returns that result instead. -/
def packagesearch (db : List PackageDoc) (title : Option String)
    (minPrice maxPrice : Option Int) (days : Option String) : List PackageDoc :=
  match title with
  | none => []
  | some t =>
      if t == "" then []
      else
        let narrowed := db.filter fun p =>
          ciMatch t p.title && priceOk minPrice maxPrice p.price
            && daysOk days p.days
        if narrowed.isEmpty then db.filter (fun p => ciMatch t p.title)
        else narrowed

/-- C6: when a truthy title is narrowed by price/day clauses and the
narrowed filter matches nothing, the search returns the title-only
case-insensitive filter result instead of the empty array. -/
theorem packagesearch_fallback (db : List PackageDoc) (t : String)
    (minPrice maxPrice : Option Int) (days : Option String)
    (ht : (t == "") = false)
    (h : db.filter (fun p =>
        ciMatch t p.title && priceOk minPrice maxPrice p.price
          && daysOk days p.days) = []) :
    packagesearch db (some t) minPrice maxPrice days
      = db.filter (fun p => ciMatch t p.title) := by
  rw [packagesearch]
  simp [ht, h]

/-- Witness for C6: searching "goa" in [1000, 2000] over a single
package priced 5000 matches nothing narrowed and falls back to the
title-only hit. -/
theorem packagesearch_fallback_witness :
    packagesearch [⟨"Goa Tour", 5000, "3"⟩] (some "goa")
        (some 1000) (some 2000) none
      = [⟨"Goa Tour", 5000, "3"⟩] :=
  (packagesearch_fallback [⟨"Goa Tour", 5000, "3"⟩] "goa"
      (some 1000) (some 2000) none (by decide) (by decide)).trans (by decide)

/-- C9: with the title parameter absent or empty the search returns the
empty array immediately, whatever the price-range and day parameters
are. -/
theorem packagesearch_no_title (db : List PackageDoc) (title : Option String)
    (minPrice maxPrice : Option Int) (days : Option String)
    (h : title = none ∨ title = some "") :
    packagesearch db title minPrice maxPrice days = [] := by
  rcases h with h | h <;> subst h <;> simp [packagesearch]

/-- Witness for C9 with an empty title and every narrowing parameter
supplied. -/
theorem packagesearch_no_title_witness :
    packagesearch [⟨"Goa Tour", 5000, "3"⟩] (some "")
        (some 0) (some 10000) (some "3") = [] :=
  packagesearch_no_title [⟨"Goa Tour", 5000, "3"⟩] (some "")
    (some 0) (some 10000) (some "3") (Or.inr rfl)

/-! ### Activity image slicing (POST and PUT /api/admin/packages) -/

/-- Count consumed per activity in the create route:
`act.imageCount || 1` — an undeclared count and a declared `0` are both
falsy in JavaScript, so both fall back to 1. -/
def actCount (imageCount : Option Nat) : Nat :=
  match imageCount with
  | some n => if n == 0 then 1 else n
  | none => 1

/-- Slicing loop of `POST /api/admin/packages`: with running index
`imgIdx`, the activity with declared count `c` receives
`activityImages.slice(imgIdx, imgIdx + count)` and the index advances by
`count` (even past the end of the batch). -/
def assignCreate (batch : List String) :
    List (Option Nat) → Nat → List (List String)
  | [], _ => []
  | c :: cs, imgIdx =>
      (batch.drop imgIdx).take (actCount c)
        :: assignCreate batch cs (imgIdx + actCount c)

/-- Total count consumed by a prefix of activities in the create loop. -/
def sumCounts (l : List (Option Nat)) : Nat := (l.map actCount).sum

/-- Length of the images array declared for one activity in the update
request body (0 when the activity declares none). -/
def declLen (d : Option (List String)) : Nat := (d.getD []).length

/-- Per-activity merge loop of `PUT /api/admin/packages/:id`: activity
`idx` appends to its stored images exactly `newImgs.length` files spliced
from the front of the shared remaining upload batch, where `newImgs` is
the images array declared for that index in the request body (`[]` when
absent) — the splice mutates `req.files.activityImages`, so later
activities see the shrunken batch. -/
def assignUpdate :
    List (List String) → List (Option (List String)) → List String →
      List (List String)
  | [], _, _ => []
  | e :: es, ds, rem =>
      (e ++ rem.take ((ds.head?.getD none).getD []).length)
        :: assignUpdate es ds.tail
            (rem.drop ((ds.head?.getD none).getD []).length)

/-- Files consumed by a prefix of the declared arrays in the update
loop. -/
def sumDeclLens (l : List (Option (List String))) : Nat :=
  (l.map declLen).sum

lemma assignCreate_getD (counts : List (Option Nat)) (batch : List String)
    (base i : Nat) (h : i < counts.length) :
    (assignCreate batch counts base).getD i []
      = (batch.drop (base + sumCounts (counts.take i))).take
          (actCount (counts.getD i none)) := by
  induction counts generalizing base i with
  | nil => simp at h
  | cons c cs ih =>
      cases i with
      | zero => simp [assignCreate, sumCounts]
      | succ j =>
          have hj : j < cs.length := Nat.lt_of_succ_lt_succ (by simpa using h)
          have ih' := ih (base + actCount c) j hj
          simp only [assignCreate, List.getD_cons_succ, List.take_succ_cons,
            sumCounts, List.map_cons, List.sum_cons] at ih' ⊢
          rw [← Nat.add_assoc]
          exact ih'

lemma assignUpdate_getD (ex : List (List String))
    (ds : List (Option (List String))) (rem : List String) (j : Nat)
    (h : j < ex.length) :
    (assignUpdate ex ds rem).getD j []
      = ex.getD j []
          ++ (rem.drop (sumDeclLens (ds.take j))).take
              (declLen (ds.getD j none)) := by
  induction ex generalizing ds rem j with
  | nil => simp at h
  | cons e es ih =>
      cases j with
      | zero => cases ds <;> simp [assignUpdate, sumDeclLens, declLen]
      | succ j =>
          have hj : j < es.length := Nat.lt_of_succ_lt_succ (by simpa using h)
          cases ds with
          | nil =>
              have ih' := ih [] rem j hj
              simpa [assignUpdate, sumDeclLens, declLen] using ih'
          | cons d ds' =>
              have ih' := ih ds' (rem.drop (declLen d)) j hj
              simp only [assignUpdate, List.head?, Option.getD_some,
                List.tail_cons, List.getD_cons_succ, List.take_succ_cons,
                sumDeclLens, List.map_cons, List.sum_cons, declLen,
                List.drop_drop] at ih' ⊢
              exact ih'

/-- Counterexample to C7: in the update route an activity with no
declared images array consumes zero files from the batch — not the one
file the default-1 rule would take. -/
theorem assignUpdate_default_not_one_cex :
    assignUpdate [[]] [none] ["f1"] = [[]]
    ∧ assignUpdate [[]] [none] ["f1"] ≠ [["f1"]] := by
  constructor
  · rfl
  · decide

/-- C7 (amended): sub-items are processed in itinerary order consuming
from the front of the remaining flat batch; in the create route sub-item
`i` takes `imageCount_i` files, defaulting to 1 when the count is
undeclared or declared 0, while in the update route sub-item `i` takes
exactly as many files as its declared images array holds (0 when absent),
appended after its stored images. -/
theorem activity_slicing (batch : List String) (counts : List (Option Nat))
    (base i : Nat) (ex : List (List String))
    (ds : List (Option (List String))) (rem : List String) (j : Nat)
    (hi : i < counts.length) (hj : j < ex.length) :
    (assignCreate batch counts base).getD i []
        = (batch.drop (base + sumCounts (counts.take i))).take
            (actCount (counts.getD i none))
    ∧ (assignUpdate ex ds rem).getD j []
        = ex.getD j []
            ++ (rem.drop (sumDeclLens (ds.take j))).take
                (declLen (ds.getD j none)) :=
  ⟨assignCreate_getD counts batch base i hi,
   assignUpdate_getD ex ds rem j hj⟩

/-- Witness for C7 (amended): with batch `[f1, f2, f3]` and counts
`[undeclared, 2]` the second activity of a create gets `[f2, f3]`; an
update activity declaring one retained image takes exactly one file from
the front of the batch, appended after its stored image. -/
theorem activity_slicing_witness :
    (assignCreate ["f1", "f2", "f3"] [none, some 2] 0).getD 1 [] = ["f2", "f3"]
    ∧ (assignUpdate [["e1"]] [some ["x"]] ["g1", "g2"]).getD 0 [] = ["e1", "g1"] := by
  have h := activity_slicing ["f1", "f2", "f3"] [none, some 2] 0 1
    [["e1"]] [some ["x"]] ["g1", "g2"] 0 (by decide) (by decide)
  exact ⟨h.1.trans (by decide), h.2.trans (by decide)⟩

end DreamzBackend
